import Mathlib

/-!
# Verification of the codeforces-editorial-finder core pipeline

This file gives a shallow embedding, in Lean 4, of the algorithmic core of the
codeforces-editorial-finder repository: the URL resolver
(`src/codeforces_editorial/parsers/url_parser.py`), the cache-key derivations
(`src/codeforces_editorial/cache.py`, `src/domain/models.py`), the cached-record
serialization (`src/domain/models.py`), the orchestrator control flow
(`src/codeforces_editorial/orchestrator.py`, `src/services/editorial.py`), and —
modelled from the specification where the Python module is absent from the
source tree — the editorial extractor and the tutorial-content normalizer.

Python strings are modelled as `List Char`; Python `datetime` values as a
record of calendar fields; regular-expression matching against the three fixed
URL patterns is modelled by direct pattern functions whose greedy/leftmost
behaviour coincides with `re.search` on those patterns (argued in the doc
comments of the individual definitions).
-/

namespace CF

/-- Python strings are modelled as lists of characters. -/
abbrev Str := List Char

/-- Consume the literal `pat` from the front of `l`, returning the remainder.
Models matching a literal fragment of one of the fixed regex patterns. -/
def matchLit : Str → Str → Option Str
  | [], l => some l
  | _ :: _, [] => none
  | p :: ps, c :: cs => if p = c then matchLit ps cs else none

/-- Split off the longest run of ASCII digits at the front of the list.
Models the greedy regex fragment `\d*` (and, when required nonempty, `\d+`). -/
def spanDigits : Str → Str × Str
  | [] => ([], [])
  | c :: cs =>
    if c.isDigit then
      let r := spanDigits (cs)
      (c :: r.1, r.2)
    else ([], c :: cs)

/-! ## Data model: `ProblemIdentifier` and the cache keys (`src/domain/models.py`,
`src/codeforces_editorial/cache.py`) -/

/-- `ProblemIdentifier` from `src/domain/models.py` (the same frozen dataclass
appears in `src/codeforces_editorial/models.py`): a contest id string, a problem
index string, and a gym flag defaulting to false. -/
structure ProblemIdentifier where
  contest_id : Str
  problem_id : Str
  is_gym : Bool := false
deriving DecidableEq, Repr

/-- `ProblemIdentifier.full_id` from `src/domain/models.py`:
the concatenation of contest id and problem index. -/
def ProblemIdentifier.full_id (p : ProblemIdentifier) : Str :=
  p.contest_id ++ p.problem_id

/-- `ProblemIdentifier.cache_key` from `src/domain/models.py`:
`editorial_` + (`gym_` when the gym flag is set) + contest id + `_` + problem index. -/
def ProblemIdentifier.cache_key (p : ProblemIdentifier) : Str :=
  "editorial_".data ++ (if p.is_gym then "gym_".data else []) ++
    p.contest_id ++ "_".data ++ p.problem_id

/-- `EditorialCache._get_key` from `src/codeforces_editorial/cache.py`:
`editorial_` + contest id + `_` + problem index.  Note it does not consult
the gym flag. -/
def EditorialCache.getKey (p : ProblemIdentifier) : Str :=
  "editorial_".data ++ p.contest_id ++ "_".data ++ p.problem_id

/-- Shape of the problem-index strings produced by the URL resolver:
one uppercase ASCII letter followed by zero or more digits. -/
def validIndex : Str → Bool
  | [] => false
  | c :: cs => c.isUpper && cs.all (fun d => d.isDigit)

/-- Shape of the identifiers produced by the URL resolver: contest id a
nonempty string of digits, problem index one uppercase letter plus digits. -/
def validId (p : ProblemIdentifier) : Bool :=
  !p.contest_id.isEmpty && p.contest_id.all (fun c => c.isDigit) &&
    validIndex p.problem_id

/-! ## The URL resolver (`src/codeforces_editorial/parsers/url_parser.py`)

`URLParser.PATTERNS` holds three regexes of the common shape
`codeforces\.(com|ru)<mid>(\d+)<sep>([A-Z]\d*)` with
`(mid, sep)` being `(/contest/, /problem/)`, `(/problemset/problem/, /)` and
`(/gym/, /problem/)`.  `re.search` scans left to right and at each position
matches the pattern by backtracking; on these patterns backtracking is
deterministic: a greedy maximal digit run for `\d+` followed by the non-digit
literal `sep` is the only possible split (shortening the run puts a digit
where the non-digit literal must match), `com`/`ru` cannot both start at one
position, and `[A-Z]\d*` greedily takes the trailing digits.  `matchPat`
implements that deterministic match at one position and `searchPat` the
left-to-right scan. -/

/-- Match one of the three URL patterns at the head of `l`, returning the two
captured groups `(\d+)` and `([A-Z]\d*)`. -/
def matchPat (mid sep : Str) (l : Str) : Option (Str × Str) := do
  let r1 ← matchLit "codeforces.".data l
  let r2 ← (matchLit "com".data r1).orElse (fun _ => matchLit "ru".data r1)
  let r3 ← matchLit mid r2
  let (ds, r4) := spanDigits r3
  guard (!ds.isEmpty)
  let r5 ← matchLit sep r4
  match r5 with
  | [] => none
  | c :: r6 =>
    if c.isUpper then
      let (ds2, _) := spanDigits r6
      pure (ds, c :: ds2)
    else none

/-- `re.search` for one pattern: try each position left to right. -/
def searchPat (mid sep : Str) : Str → Option (Str × Str)
  | [] => matchPat mid sep []
  | c :: t => (matchPat mid sep (c :: t)).orElse (fun _ => searchPat mid sep t)

/-- Python `pat in s`: the pattern occurs as a contiguous segment. -/
def containsSeg (pat : Str) : Str → Bool
  | [] => decide (pat = [])
  | c :: t => (matchLit pat (c :: t)).isSome || containsSeg pat t

/-- Split at the first `:` — the scheme part of `urllib.parse.urlparse`. -/
def schemeSplit : Str → Option (Str × Str)
  | [] => none
  | c :: t =>
    if c = ':' then some ([], t)
    else (schemeSplit t).map (fun p => (c :: p.1, p.2))

/-- Whether a netloc part is nonempty (its first character does not already
terminate it). -/
def hostNonempty : Str → Bool
  | [] => false
  | c :: _ => !(c = '/' || c = '?' || c = '#')

/-- The `parsed.scheme and parsed.netloc` check of `URLParser.parse`:
`urlparse` yields a nonempty scheme (a letter followed by letters, digits,
`+`, `-`, `.`, before the first `:`) and a nonempty netloc (the part right
after `://`). -/
def hasSchemeNetloc (l : Str) : Bool :=
  match schemeSplit l with
  | none => false
  | some (sch, rest) =>
    (match sch with
     | [] => false
     | c :: cs => c.isAlpha && cs.all (fun d => d.isAlphanum || d = '+' || d = '-' || d = '.')) &&
    (match rest with
     | '/' :: '/' :: r => hostNonempty r
     | _ => false)

/-- `URLParser.parse` from `src/codeforces_editorial/parsers/url_parser.py`:
check scheme/netloc, try the three patterns in order, and on the first match
build an identifier whose contest id and problem index are the two captured
groups and whose gym flag is `"/gym/" in url` — a containment test on the
whole URL string.  `none` models raising `URLParseError`. -/
def URLParser.parse (url : Str) : Option ProblemIdentifier :=
  if hasSchemeNetloc url then
    match searchPat "/contest/".data "/problem/".data url with
    | some (cid, pid) => some ⟨cid, pid, containsSeg "/gym/".data url⟩
    | none =>
      match searchPat "/problemset/problem/".data "/".data url with
      | some (cid, pid) => some ⟨cid, pid, containsSeg "/gym/".data url⟩
      | none =>
        match searchPat "/gym/".data "/problem/".data url with
        | some (cid, pid) => some ⟨cid, pid, containsSeg "/gym/".data url⟩
        | none => none
  else none

/-- `URLParser.build_problem_url`: `https://codeforces.com` + (`/gym/` or
`/contest/`) + contest id + `/problem/` + problem index. -/
def URLParser.build_problem_url (p : ProblemIdentifier) : Str :=
  if p.is_gym then
    "https://codeforces.com".data ++
      ("/gym/".data ++ (p.contest_id ++ ("/problem/".data ++ p.problem_id)))
  else
    "https://codeforces.com".data ++
      ("/contest/".data ++ (p.contest_id ++ ("/problem/".data ++ p.problem_id)))

/-! ## Decimal digits, `datetime` and the ISO-8601 codec

`src/domain/models.py` serializes `extracted_at` / `cached_at` with
`datetime.isoformat()` and deserializes with `datetime.fromisoformat()`.
We model a `datetime` as its calendar fields and implement the two stdlib
functions concretely: `isoformat` prints zero-padded decimal fields joined by
the fixed separators, omitting the `.ffffff` part when the microsecond is 0
(as CPython does); `fromisoformat` parses that shape. -/

/-- The character for the decimal digit `d` (for `d < 10`). -/
def digitChar (d : Nat) : Char := Char.ofNat (48 + d)

/-- Decimal digits of `n`, most significant first, accumulated into `acc`. -/
def natDigitsCore (n : Nat) (acc : Str) : Str :=
  if h : n < 10 then digitChar n :: acc
  else natDigitsCore (n / 10) (digitChar (n % 10) :: acc)
termination_by n
decreasing_by exact Nat.div_lt_self (by omega) (by omega)

/-- Decimal digits of `n`, most significant first. -/
def natDigits (n : Nat) : Str := natDigitsCore n []

/-- `n` printed in decimal, left-padded with zeros to width `w`
(Python `"%0*d"`; wider numbers are not truncated). -/
def padNat (w n : Nat) : Str :=
  List.replicate (w - (natDigits n).length) '0' ++ natDigits n

/-- Fold a digit string into the number it denotes (accumulator form). -/
def decodeAux (a : Nat) : Str → Nat
  | [] => a
  | c :: cs => decodeAux (a * 10 + (c.toNat - 48)) cs

/-- The number denoted by a decimal digit string (Python `int(s)` on the
digit strings produced by the printer). -/
def decodeDigits (l : Str) : Nat := decodeAux 0 l

/-- Whether the string starts with an ASCII digit. -/
def headDigit : Str → Bool
  | [] => false
  | c :: _ => c.isDigit

/-- Consume one expected separator character. -/
def parseSep (sep : Char) : Str → Option Str
  | [] => none
  | c :: cs => if c = sep then some cs else none

/-- A Python `datetime.datetime` value, as its calendar fields. -/
structure DateTime where
  year : Nat
  month : Nat
  day : Nat
  hour : Nat
  minute : Nat
  second : Nat
  microsecond : Nat
deriving DecidableEq, Repr

/-- `datetime.isoformat()`: `YYYY-MM-DDTHH:MM:SS` plus `.ffffff` exactly when
the microsecond is nonzero. -/
def DateTime.isoformat (t : DateTime) : Str :=
  padNat 4 t.year ++ '-' :: padNat 2 t.month ++ '-' :: padNat 2 t.day ++
    'T' :: padNat 2 t.hour ++ ':' :: padNat 2 t.minute ++ ':' :: padNat 2 t.second ++
    (if t.microsecond = 0 then [] else '.' :: padNat 6 t.microsecond)

/-- `datetime.fromisoformat()` restricted to the shape `isoformat` emits:
digit runs joined by the fixed separators, with an optional fractional part. -/
def DateTime.fromisoformat (l : Str) : Option DateTime := do
  let (ys, r1) := spanDigits l
  guard (!ys.isEmpty)
  let r2 ← parseSep '-' r1
  let (mos, r3) := spanDigits r2
  guard (!mos.isEmpty)
  let r4 ← parseSep '-' r3
  let (ds, r5) := spanDigits r4
  guard (!ds.isEmpty)
  let r6 ← parseSep 'T' r5
  let (hs, r7) := spanDigits r6
  guard (!hs.isEmpty)
  let r8 ← parseSep ':' r7
  let (mis, r9) := spanDigits r8
  guard (!mis.isEmpty)
  let r10 ← parseSep ':' r9
  let (ss, r11) := spanDigits r10
  guard (!ss.isEmpty)
  match r11 with
  | [] =>
    pure ⟨decodeDigits ys, decodeDigits mos, decodeDigits ds,
      decodeDigits hs, decodeDigits mis, decodeDigits ss, 0⟩
  | '.' :: rest =>
    let (us, r12) := spanDigits rest
    guard (!us.isEmpty && r12.isEmpty)
    pure ⟨decodeDigits ys, decodeDigits mos, decodeDigits ds,
      decodeDigits hs, decodeDigits mis, decodeDigits ss, decodeDigits us⟩
  | _ => none

/-- Day number of a civil date (days since 1970-01-01, Gregorian calendar,
the standard days-from-civil computation used by `datetime` date arithmetic). -/
def daysFromCivil (y m d : Int) : Int :=
  let y := if m ≤ 2 then y - 1 else y
  let era := (if 0 ≤ y then y else y - 399) / 400
  let yoe := y - era * 400
  let doy := (153 * (m + (if 2 < m then -3 else 9)) + 2) / 5 + d - 1
  let doe := yoe * 365 + yoe / 4 - yoe / 100 + doy
  era * 146097 + doe - 719468

/-- The instant of a `datetime`, in seconds (a rational, so that
`timedelta.total_seconds()` arithmetic is exact). -/
def DateTime.toSeconds (t : DateTime) : ℚ :=
  ((daysFromCivil t.year t.month t.day * 86400 +
      t.hour * 3600 + t.minute * 60 + t.second : Int) : ℚ) +
    (t.microsecond : ℚ) / 1000000

/-! ## `TutorialFormat`, `Editorial`, `CachedEditorial` and the wire format
(`src/domain/models.py`) -/

/-- The `TutorialFormat` string enum from `src/domain/models.py`. -/
inductive TutorialFormat where
  | html
  | pdf
  | unknown
deriving DecidableEq, Repr

/-- The enum member's `.value` string. -/
def TutorialFormat.value : TutorialFormat → Str
  | .html => "html".data
  | .pdf => "pdf".data
  | .unknown => "unknown".data

/-- `TutorialFormat(s)`: enum lookup by value, failing on unknown strings
(Python raises `ValueError`). -/
def TutorialFormat.fromValue (s : Str) : Option TutorialFormat :=
  if s = "html".data then some .html
  else if s = "pdf".data then some .pdf
  else if s = "unknown".data then some .unknown
  else none

/-- The `Editorial` dataclass from `src/domain/models.py`: problem id,
solution text, optional source URL, extraction timestamp. -/
structure Editorial where
  problem_id : Str
  solution_text : Str
  source_url : Option Str
  extracted_at : DateTime
deriving DecidableEq, Repr

/-- The `CachedEditorial` dataclass from `src/domain/models.py`: an editorial
plus provenance and a TTL in hours defaulting to 168 (7 days). -/
structure CachedEditorial where
  problem : ProblemIdentifier
  editorial : Editorial
  tutorial_url : Str
  tutorial_format : TutorialFormat
  cached_at : DateTime
  ttl_hours : Int := 168
deriving DecidableEq, Repr

/-- `CachedEditorial.is_expired` from `src/domain/models.py`:
`(datetime.now() - self.cached_at).total_seconds() / 3600 > self.ttl_hours`,
with the evaluation instant `now` passed in as seconds. -/
def CachedEditorial.is_expired (c : CachedEditorial) (now : ℚ) : Bool :=
  decide ((now - c.cached_at.toSeconds) / 3600 > (c.ttl_hours : ℚ))

/-- Wire form of the nested `problem` mapping of `CachedEditorial.to_dict`. -/
structure ProblemDict where
  contest_id : Str
  problem_id : Str
  is_gym : Bool
deriving DecidableEq, Repr

/-- Wire form of the nested `editorial` mapping of `CachedEditorial.to_dict`;
`extracted_at` is an ISO-8601 string. -/
structure EditorialDict where
  problem_id : Str
  solution_text : Str
  source_url : Option Str
  extracted_at : Str
deriving DecidableEq, Repr

/-- Wire form of the mapping produced by `CachedEditorial.to_dict`:
`tutorial_format` is the enum value string, `cached_at` is ISO-8601. -/
structure CachedEditorialDict where
  problem : ProblemDict
  editorial : EditorialDict
  tutorial_url : Str
  tutorial_format : Str
  cached_at : Str
  ttl_hours : Int
deriving DecidableEq, Repr

/-- `CachedEditorial.to_dict` from `src/domain/models.py`. -/
def CachedEditorial.to_dict (c : CachedEditorial) : CachedEditorialDict where
  problem :=
    { contest_id := c.problem.contest_id
      problem_id := c.problem.problem_id
      is_gym := c.problem.is_gym }
  editorial :=
    { problem_id := c.editorial.problem_id
      solution_text := c.editorial.solution_text
      source_url := c.editorial.source_url
      extracted_at := c.editorial.extracted_at.isoformat }
  tutorial_url := c.tutorial_url
  tutorial_format := c.tutorial_format.value
  cached_at := c.cached_at.isoformat
  ttl_hours := c.ttl_hours

/-- `CachedEditorial.from_dict` from `src/domain/models.py`; timestamp parsing
and enum lookup can fail (Python raises), hence `Option`. -/
def CachedEditorial.from_dict (d : CachedEditorialDict) : Option CachedEditorial := do
  let extractedAt ← DateTime.fromisoformat d.editorial.extracted_at
  let fmt ← TutorialFormat.fromValue d.tutorial_format
  let cachedAt ← DateTime.fromisoformat d.cached_at
  pure
    { problem :=
        { contest_id := d.problem.contest_id
          problem_id := d.problem.problem_id
          is_gym := d.problem.is_gym }
      editorial :=
        { problem_id := d.editorial.problem_id
          solution_text := d.editorial.solution_text
          source_url := d.editorial.source_url
          extracted_at := extractedAt }
      tutorial_url := d.tutorial_url
      tutorial_format := fmt
      cached_at := cachedAt
      ttl_hours := d.ttl_hours }

/-! ## The Editorial Extractor

The module `domain/extractors/editorial_extractor.py` is imported by
`src/services/editorial.py` and `src/application/orchestrator.py` and
exercised by `src/tests/test_editorial_extractor.py`, but the module itself is
absent from the source tree; the definitions below are modelled from the
specification (its §4.5 algorithm) and checked against the expectations of
those tests. -/

/-- A dynamic Python value, as far as the extractor's response-shape
validation distinguishes shapes: `None`, a string, a number, a list (or
tuple), a mapping. -/
inductive PyVal where
  | pynone
  | str (s : Str)
  | num (n : Int)
  | list (xs : List PyVal)
  | dict (entries : List (Str × PyVal))

/-- Mapping lookup by key (first binding wins). -/
def lookupKey : List (Str × PyVal) → Str → Option PyVal
  | [], _ => Option.none
  | (k, v) :: t, key => if k = key then some v else lookupKey t key

/-- The characters Python `str.strip()` removes. -/
def isPySpace (c : Char) : Bool :=
  c = ' ' || c = '\t' || c = '\n' || c = '\r' || c = '\x0b' || c = '\x0c'

/-- Python `str.strip()`: drop leading and trailing whitespace. -/
def pyStrip (l : Str) : Str :=
  ((l.dropWhile isPySpace).reverse.dropWhile isPySpace).reverse

/-- Whether the string starts with a newline (used for the
exactly-one-blank-line condition of the front-matter protocol). -/
def headNewline : Str → Bool
  | [] => false
  | c :: _ => decide (c = '\n')

/-- Modelled from the spec: scan for the closing front-matter delimiter.
Given the text after the opening `---` line, find the earliest occurrence of
`\n---\n\n` that is followed by something other than a further newline
(the spec requires exactly one blank line after the closing delimiter), and
return the remaining content. -/
def findCloseAux : Str → Option Str
  | [] => Option.none
  | c :: t =>
    match matchLit "\n---\n\n".data (c :: t) with
    | some rest => if headNewline rest then findCloseAux t else some rest
    | Option.none => findCloseAux t

/-- Modelled from the spec: front-matter stripping (§4.5 step 5).  Strip only
when the trimmed text starts with a `---` line, followed by intervening
content, a `---` line, and exactly one blank line; then the result is the
remaining content trimmed.  On any other shape return the text unchanged. -/
def stripFrontMatter (t : Str) : Str :=
  match matchLit "---\n".data t with
  | some rest0 =>
    match findCloseAux rest0 with
    | some rest => pyStrip rest
    | Option.none => t
  | Option.none => t

/-- The declarative front-matter shape of the spec: a line of three hyphens,
intervening line content, a line of three hyphens, exactly one blank line,
then the remaining content. -/
def FMShape (t : Str) : Prop :=
  ∃ mid rest, t = "---\n".data ++ mid ++ "\n---\n\n".data ++ rest ∧
    headNewline rest = false

/-- Modelled from the spec: the Editorial Extractor's `extract`
(`domain/extractors/editorial_extractor.py`, absent from the source tree),
reduced to the solution text of the Editorial it produces.  The LLM client's
model name is `modelName` (`Option.none` when the client exposes no `model`
attribute) and `response` is the value returned by the client's
`extract_solution`.  Steps: the client must expose a model name; the response
must be a mapping whose `raw_response` key holds exactly a string; the string
is trimmed; a trimmed text starting with the case-sensitive literal
`NOT_FOUND` fails; otherwise front matter is stripped and the result is the
`solution_text`.  `Option.none` models raising `ExtractionError`. -/
def extractSolutionText (modelName : Option Str) (response : PyVal) : Option Str :=
  match modelName with
  | Option.none => Option.none
  | some _ =>
    match response with
    | PyVal.dict entries =>
      match lookupKey entries "raw_response".data with
      | some (PyVal.str s) =>
        let trimmed := pyStrip s
        if "NOT_FOUND".data.isPrefixOf trimmed then Option.none
        else some (stripFrontMatter trimmed)
      | _ => Option.none
    | _ => Option.none

/-! ## The orchestrator pipelines (`src/codeforces_editorial/orchestrator.py`,
`src/services/editorial.py`, `src/application/orchestrator.py`)

The collaborator calls (URL resolution, page fetch+parse, tutorial finding,
tutorial parsing, extraction, cache read, cache write) are modelled by their
outcomes, packaged in `PipelineOps`; the orchestrator definitions reproduce
the control flow of the Python functions over those outcomes. -/

/-- The failure taxonomy, one constructor per domain error class. -/
inductive PipeError where
  | urlParse
  | network
  | notFound
  | parsing
  | editorialNotFound
  | extraction
  | cache
  | wrapped
deriving DecidableEq, Repr

/-- The fields of `ProblemData` the orchestrator control flow touches. -/
structure ProblemData where
  title : Str
deriving DecidableEq, Repr

/-- The fields of `TutorialData` the orchestrator control flow touches. -/
structure TutorialData where
  url : Str
  format : TutorialFormat
  content : Str
deriving DecidableEq, Repr

/-- Outcomes of one pipeline run's collaborator calls. -/
structure PipelineOps where
  resolve : Except PipeError ProblemIdentifier
  cacheGet : Except PipeError (Option CachedEditorial)
  problemPage : Except PipeError ProblemData
  findTutorial : Except PipeError Str
  parseTutorial : Except PipeError TutorialData
  extractEd : Except PipeError Editorial
  cacheSet : Except PipeError Unit

/-- `EditorialOrchestrator.get_editorial` from
`src/codeforces_editorial/orchestrator.py`.  Cache reads go through
`EditorialCache.get`, which catches its own exceptions and returns `None`
(a miss); the cache write `self.cache.set(...)` at step 7 is **not** wrapped
in any local try/except, and `EditorialCache.set` raises `CacheError` on
failure, so a cache-write failure propagates out of `get_editorial` (the
surrounding handler re-raises domain errors and wraps the rest — either way
the call fails).  `use_cache` covers `self.use_cache and self.cache`, which
are set together in `__init__`. -/
def syncGetEditorial (useCache : Bool) (ops : PipelineOps) :
    Except PipeError (Editorial × ProblemData) :=
  match ops.resolve with
  | .error e => .error e
  | .ok _identifier =>
    let hit : Option CachedEditorial :=
      if useCache then
        match ops.cacheGet with
        | .ok v => v
        | .error _ => Option.none
      else Option.none
    match hit with
    | some cached =>
      (match ops.problemPage with
       | .error e => .error e
       | .ok pd => .ok (cached.editorial, pd))
    | Option.none =>
      match ops.problemPage with
      | .error e => .error e
      | .ok pd =>
        match ops.findTutorial with
        | .error e => .error e
        | .ok _url =>
          match ops.parseTutorial with
          | .error e => .error e
          | .ok _td =>
            match ops.extractEd with
            | .error e => .error e
            | .ok ed =>
              if useCache then
                match ops.cacheSet with
                | .error e => .error e
                | .ok _ => .ok (ed, pd)
              else .ok (ed, pd)

/-- `get_editorial` from `src/services/editorial.py` (the async orchestrator
in `src/application/orchestrator.py` has the same flow): `_get_from_cache`
and `_save_to_cache` both wrap their cache operations in try/except and log,
so cache failures in either direction are swallowed; `useCache`/`cacheAvail`
model `use_cache` and `cache_client` being provided. -/
def serviceGetEditorial (useCache cacheAvail : Bool) (ops : PipelineOps) :
    Except PipeError (Editorial × ProblemData) :=
  match ops.resolve with
  | .error e => .error e
  | .ok _identifier =>
    let hit : Option CachedEditorial :=
      if useCache && cacheAvail then
        match ops.cacheGet with
        | .ok v => v
        | .error _ => Option.none
      else Option.none
    match hit with
    | some cached =>
      (match ops.problemPage with
       | .error e => .error e
       | .ok pd => .ok (cached.editorial, pd))
    | Option.none =>
      match ops.problemPage with
      | .error e => .error e
      | .ok pd =>
        match ops.findTutorial with
        | .error e => .error e
        | .ok _url =>
          match ops.parseTutorial with
          | .error e => .error e
          | .ok _td =>
            match ops.extractEd with
            | .error e => .error e
            | .ok ed =>
              if useCache && cacheAvail then
                match ops.cacheSet with
                | _ => .ok (ed, pd)
              else .ok (ed, pd)

/-- A pipeline run in which resolution, page parsing, tutorial finding,
tutorial parsing and extraction all succeed, the cache misses on read, and
the cache write fails. -/
def breakingOps : PipelineOps where
  resolve := .ok ⟨"1".data, "A".data, false⟩
  cacheGet := .ok Option.none
  problemPage := .ok ⟨"t".data⟩
  findTutorial := .ok "u".data
  parseTutorial := .ok ⟨"u".data, TutorialFormat.html, "c".data⟩
  extractEd := .ok ⟨"1A".data, "sol".data, Option.none, ⟨2024, 1, 1, 0, 0, 0, 0⟩⟩
  cacheSet := .error PipeError.cache

/-! ## The Tutorial Content Normalizer's fetch-path routing -/

/-- The three ways the normalizer fetches a URL. -/
inductive FetchPath where
  | pdfBytes
  | jsRendered (waitMs : Nat)
  | staticText
deriving DecidableEq, Repr

/-- Modelled from the spec: the fetch-path decision of the Tutorial Content
Normalizer's `parse` (`domain/parsers/tutorial_parser.py`, absent from the
source tree; `src/tests/parser/test_rendering.py` pins the JS-rendered fetch
and its 5000 ms wait budget).  If the queried content type contains `pdf`,
fetch bytes for PDF decoding; otherwise URLs under a blog or contest path use
the JS-rendered fetch with the fixed wait budget, and all other HTML URLs the
static text fetch. -/
def choosePath (contentType url : Str) : FetchPath :=
  if containsSeg "pdf".data contentType then FetchPath.pdfBytes
  else if containsSeg "/blog/".data url || containsSeg "/contest/".data url then
    FetchPath.jsRendered 5000
  else FetchPath.staticText

/-! ### Splitting lemmas for the cache keys -/

theorem not_digit_underscore : ('_' : Char).isDigit = false := by decide

/-- If `a` and `b` are digit-only strings, an equality
`a ++ '_' :: x = b ++ '_' :: y` splits at the first underscore. -/
theorem digit_underscore_split :
    ∀ (a b x y : Str), (∀ c ∈ a, c.isDigit) → (∀ c ∈ b, c.isDigit) →
      a ++ '_' :: x = b ++ '_' :: y → a = b ∧ x = y := by
  intro a
  induction a with
  | nil =>
    intro b x y _ hb h
    cases b with
    | nil => simpa using h
    | cons c t =>
      simp only [List.nil_append, List.cons_append, List.cons.injEq] at h
      have hc : c.isDigit := hb c (by simp)
      rw [← h.1] at hc
      simp [not_digit_underscore] at hc
  | cons c t ih =>
    intro b x y ha hb h
    cases b with
    | nil =>
      simp only [List.cons_append, List.nil_append, List.cons.injEq] at h
      have hc : c.isDigit := ha c (by simp)
      rw [h.1] at hc
      simp [not_digit_underscore] at hc
    | cons c2 t2 =>
      simp only [List.cons_append, List.cons.injEq] at h
      obtain ⟨rfl, h2⟩ := h
      have := ih t2 x y (fun d hd => ha d (by simp [hd])) (fun d hd => hb d (by simp [hd])) h2
      exact ⟨by rw [this.1], this.2⟩

theorem validId_contest_digits {p : ProblemIdentifier} (h : validId p = true) :
    ∀ c ∈ p.contest_id, c.isDigit := by
  unfold validId at h
  simp only [Bool.and_eq_true, List.all_eq_true] at h
  exact fun c hc => h.1.2 c hc

theorem validId_contest_ne_nil {p : ProblemIdentifier} (h : validId p = true) :
    p.contest_id ≠ [] := by
  unfold validId at h
  simp only [Bool.and_eq_true] at h
  have := h.1.1
  cases hce : p.contest_id with
  | nil => rw [hce] at this; simp [List.isEmpty] at this
  | cons c t => simp

/-- `cache_key` (from `src/domain/models.py`) is injective on identifiers with
digit-only contest ids: equal keys force equal (contest, index, gym) triples. -/
theorem cache_key_inj {p q : ProblemIdentifier}
    (hp : ∀ c ∈ p.contest_id, c.isDigit) (hq : ∀ c ∈ q.contest_id, c.isDigit)
    (hpn : p.contest_id ≠ []) (hqn : q.contest_id ≠ [])
    (h : p.cache_key = q.cache_key) : p = q := by
  unfold ProblemIdentifier.cache_key at h
  simp only [List.append_assoc] at h
  have h := List.append_cancel_left h
  cases p with
  | mk pc pi pg =>
    cases q with
    | mk qc qi qg =>
      simp only at h hp hq hpn hqn
      cases pg <;> cases qg <;> simp only [if_true, if_false, Bool.false_eq_true] at h
      · have hs : pc ++ '_' :: pi = qc ++ '_' :: qi := by
          simpa using h
        obtain ⟨rfl, rfl⟩ := digit_underscore_split pc qc pi qi hp hq hs
        rfl
      · -- `q` is a gym identifier, `p` is not: the key of `q` starts with `g`.
        exfalso
        cases pc with
        | nil => exact hpn rfl
        | cons c t =>
          have : c :: (t ++ '_' :: pi) = 'g' :: ("ym_".data ++ (qc ++ '_' :: qi)) := by
            simpa using h
          have hc : c.isDigit := hp c (by simp)
          rw [List.cons.injEq] at this
          rw [this.1] at hc
          simp at hc
      · exfalso
        cases qc with
        | nil => exact hqn rfl
        | cons c t =>
          have : 'g' :: ("ym_".data ++ (pc ++ '_' :: pi)) = c :: (t ++ '_' :: qi) := by
            simpa using h
          have hc : c.isDigit := hq c (by simp)
          rw [List.cons.injEq] at this
          rw [← this.1] at hc
          simp at hc
      · have hs : pc ++ '_' :: pi = qc ++ '_' :: qi := by
          have h2 := List.append_cancel_left h
          simpa using h2
        obtain ⟨rfl, rfl⟩ := digit_underscore_split pc qc pi qi hp hq hs
        rfl

/-- `EditorialCache._get_key` determines exactly the (contest, index) pair on
identifiers with digit-only contest ids — and nothing about the gym flag. -/
theorem getKey_eq_iff {p q : ProblemIdentifier}
    (hp : ∀ c ∈ p.contest_id, c.isDigit) (hq : ∀ c ∈ q.contest_id, c.isDigit) :
    EditorialCache.getKey p = EditorialCache.getKey q ↔
      (p.contest_id = q.contest_id ∧ p.problem_id = q.problem_id) := by
  constructor
  · intro h
    unfold EditorialCache.getKey at h
    simp only [List.append_assoc] at h
    have h := List.append_cancel_left h
    have hs : p.contest_id ++ '_' :: p.problem_id = q.contest_id ++ '_' :: q.problem_id := by
      simpa using h
    exact digit_underscore_split _ _ _ _ hp hq hs
  · intro ⟨h1, h2⟩
    unfold EditorialCache.getKey
    rw [h1, h2]

/-! ### Correctness of the decimal digit codec -/

theorem digitChar_isDigit {d : Nat} (h : d < 10) : (digitChar d).isDigit = true := by
  interval_cases d <;> decide

theorem digitChar_val {d : Nat} (h : d < 10) : (digitChar d).toNat - 48 = d := by
  interval_cases d <;> decide

theorem decodeAux_append (a : Nat) (l r : Str) :
    decodeAux a (l ++ r) = decodeAux (decodeAux a l) r := by
  induction l generalizing a with
  | nil => rfl
  | cons c cs ih =>
    show decodeAux (a * 10 + (c.toNat - 48)) (cs ++ r) =
      decodeAux (decodeAux (a * 10 + (c.toNat - 48)) cs) r
    exact ih _

theorem natDigitsCore_eq (n : Nat) (acc : Str) :
    natDigitsCore n acc =
      if n < 10 then digitChar n :: acc
      else natDigitsCore (n / 10) (digitChar (n % 10) :: acc) := by
  rw [natDigitsCore]
  by_cases h : n < 10
  · simp [h]
  · simp [h]

theorem natDigitsCore_acc :
    ∀ (n : Nat) (acc : Str), natDigitsCore n acc = natDigitsCore n [] ++ acc := by
  intro n
  induction n using Nat.strong_induction_on with
  | _ n ih =>
    intro acc
    rw [natDigitsCore_eq n acc, natDigitsCore_eq n []]
    by_cases h : n < 10
    · simp [h]
    · simp only [if_neg h]
      have hlt : n / 10 < n := Nat.div_lt_self (by omega) (by omega)
      rw [ih (n / 10) hlt (digitChar (n % 10) :: acc),
          ih (n / 10) hlt [digitChar (n % 10)]]
      simp

theorem natDigits_step {n : Nat} (h : ¬ n < 10) :
    natDigits n = natDigits (n / 10) ++ [digitChar (n % 10)] := by
  rw [natDigits, natDigitsCore_eq]
  simp only [if_neg h]
  exact natDigitsCore_acc _ _

theorem decode_natDigits : ∀ n : Nat, decodeDigits (natDigits n) = n := by
  intro n
  induction n using Nat.strong_induction_on with
  | _ n ih =>
    by_cases h : n < 10
    · rw [natDigits, natDigitsCore_eq]
      simp only [if_pos h]
      show decodeAux (0 * 10 + ((digitChar n).toNat - 48)) [] = n
      rw [digitChar_val h]
      show 0 * 10 + n = n
      omega
    · rw [natDigits_step h, decodeDigits, decodeAux_append]
      have hlt : n / 10 < n := Nat.div_lt_self (by omega) (by omega)
      have h1 : decodeAux 0 (natDigits (n / 10)) = n / 10 := ih (n / 10) hlt
      rw [h1]
      show decodeAux (n / 10 * 10 + ((digitChar (n % 10)).toNat - 48)) [] = n
      rw [digitChar_val (Nat.mod_lt n (by omega))]
      show n / 10 * 10 + n % 10 = n
      omega

theorem natDigits_all_digits : ∀ (n : Nat), ∀ c ∈ natDigits n, c.isDigit = true := by
  intro n
  induction n using Nat.strong_induction_on with
  | _ n ih =>
    intro c hc
    by_cases h : n < 10
    · rw [natDigits, natDigitsCore_eq] at hc
      simp only [if_pos h, List.mem_singleton] at hc
      rw [hc]
      exact digitChar_isDigit h
    · rw [natDigits_step h, List.mem_append] at hc
      rcases hc with hc | hc
      · exact ih (n / 10) (Nat.div_lt_self (by omega) (by omega)) c hc
      · rw [List.mem_singleton] at hc
        rw [hc]
        exact digitChar_isDigit (Nat.mod_lt n (by omega))

theorem natDigits_ne_nil (n : Nat) : natDigits n ≠ [] := by
  by_cases h : n < 10
  · rw [natDigits, natDigitsCore_eq]
    simp [h]
  · rw [natDigits_step h]
    simp

theorem padNat_all_digits (w n : Nat) : ∀ c ∈ padNat w n, c.isDigit = true := by
  intro c hc
  rw [padNat, List.mem_append] at hc
  rcases hc with hc | hc
  · rw [List.eq_of_mem_replicate hc]
    decide
  · exact natDigits_all_digits n c hc

theorem padNat_ne_empty (w n : Nat) : (padNat w n).isEmpty = false := by
  rw [padNat]
  cases he : List.replicate (w - (natDigits n).length) '0' ++ natDigits n with
  | nil =>
    exact absurd (List.append_eq_nil.mp he).2 (natDigits_ne_nil n)
  | cons c t => rfl

theorem padNat_ne_nil (w n : Nat) : padNat w n ≠ [] := by
  rw [padNat]
  intro h
  exact absurd (List.append_eq_nil.mp h).2 (natDigits_ne_nil n)

theorem decodeAux_zeros : ∀ k : Nat, decodeAux 0 (List.replicate k '0') = 0 := by
  intro k
  induction k with
  | zero => rfl
  | succ k ih =>
    rw [List.replicate_succ]
    show decodeAux (0 * 10 + ('0'.toNat - 48)) (List.replicate k '0') = 0
    exact ih

theorem decode_padNat (w n : Nat) : decodeDigits (padNat w n) = n := by
  rw [padNat, decodeDigits, decodeAux_append, decodeAux_zeros]
  exact decode_natDigits n

/-! ### `spanDigits` against the printed fields -/

theorem spanDigits_eq :
    ∀ (l r : Str), (∀ c ∈ l, c.isDigit = true) → headDigit r = false →
      spanDigits (l ++ r) = (l, r) := by
  intro l
  induction l with
  | nil =>
    intro r _ hr
    cases r with
    | nil => rfl
    | cons c cs =>
      simp only [headDigit] at hr
      simp [spanDigits, hr]
  | cons c t ih =>
    intro r hl hr
    have hc : c.isDigit = true := hl c (by simp)
    simp only [List.cons_append, spanDigits, hc, if_true, List.append_eq]
    rw [ih r (fun d hd => hl d (by simp [hd])) hr]

theorem spanDigits_all (l : Str) (hl : ∀ c ∈ l, c.isDigit = true) :
    spanDigits l = (l, []) := by
  have := spanDigits_eq l [] hl rfl
  simpa using this

theorem spanDigits_pad_dash (w n : Nat) (r : Str) :
    spanDigits (padNat w n ++ '-' :: r) = (padNat w n, '-' :: r) :=
  spanDigits_eq _ _ (padNat_all_digits w n) (by rfl)

theorem spanDigits_pad_colon (w n : Nat) (r : Str) :
    spanDigits (padNat w n ++ ':' :: r) = (padNat w n, ':' :: r) :=
  spanDigits_eq _ _ (padNat_all_digits w n) (by rfl)

theorem spanDigits_pad_tsep (w n : Nat) (r : Str) :
    spanDigits (padNat w n ++ 'T' :: r) = (padNat w n, 'T' :: r) :=
  spanDigits_eq _ _ (padNat_all_digits w n) (by rfl)

theorem spanDigits_pad_dot (w n : Nat) (r : Str) :
    spanDigits (padNat w n ++ '.' :: r) = (padNat w n, '.' :: r) :=
  spanDigits_eq _ _ (padNat_all_digits w n) (by rfl)

theorem spanDigits_all_pad (w n : Nat) : spanDigits (padNat w n) = (padNat w n, []) :=
  spanDigits_all _ (padNat_all_digits w n)

/-! ### The ISO-8601 round trip -/

theorem fromisoformat_isoformat (t : DateTime) :
    DateTime.fromisoformat t.isoformat = some t := by
  cases t with
  | mk y mo d h mi s us =>
    by_cases hus : us = 0
    · rw [DateTime.isoformat]
      simp only [if_pos hus, List.append_nil]
      rw [DateTime.fromisoformat]
      simp [spanDigits_pad_dash, spanDigits_pad_colon, spanDigits_pad_tsep,
        spanDigits_all_pad, padNat_ne_empty, padNat_ne_nil, parseSep,
        decode_padNat, hus]
    · rw [DateTime.isoformat]
      simp only [if_neg hus]
      rw [DateTime.fromisoformat]
      simp [spanDigits_pad_dash, spanDigits_pad_colon, spanDigits_pad_tsep,
        spanDigits_pad_dot, spanDigits_all_pad, padNat_ne_empty, padNat_ne_nil,
        parseSep, decode_padNat]

theorem fromValue_value (f : TutorialFormat) :
    TutorialFormat.fromValue f.value = some f := by
  cases f <;> decide

/-- C8: serializing a `CachedEditorial` with `to_dict` and deserializing with
`from_dict` reproduces every field, the two timestamps surviving the ISO-8601
string round trip and the tutorial format surviving the enum-value round trip. -/
theorem claim_C8 (c : CachedEditorial) :
    CachedEditorial.from_dict (CachedEditorial.to_dict c) = some c := by
  rw [CachedEditorial.to_dict, CachedEditorial.from_dict]
  simp only [fromisoformat_isoformat, fromValue_value, Option.bind_some]
  rfl

/-- C9: `is_expired` is true exactly when the elapsed time since `cached_at`
strictly exceeds `ttl_hours` hours; an entry aged exactly `ttl_hours` hours is
not expired; a `CachedEditorial` built without an explicit TTL gets 168 hours. -/
theorem claim_C9 (c : CachedEditorial) (now : ℚ) :
    (c.is_expired now = true ↔
      now - c.cached_at.toSeconds > (c.ttl_hours : ℚ) * 3600) ∧
    (c.is_expired (c.cached_at.toSeconds + (c.ttl_hours : ℚ) * 3600) = false) ∧
    (∀ (p : ProblemIdentifier) (e : Editorial) (u : Str) (f : TutorialFormat)
        (ca : DateTime),
      ({ problem := p, editorial := e, tutorial_url := u, tutorial_format := f,
         cached_at := ca } : CachedEditorial).ttl_hours = 168) := by
  refine ⟨?_, ?_, fun _ _ _ _ _ => rfl⟩
  · rw [CachedEditorial.is_expired, decide_eq_true_iff, gt_iff_lt, gt_iff_lt,
      lt_div_iff₀ (by norm_num : (0 : ℚ) < 3600)]
  · rw [CachedEditorial.is_expired]
    simp

/-- C5 (counterexample): the claim requires every cache-key derivation to
distinguish identifiers differing only in the gym flag, but
`EditorialCache._get_key` (`src/codeforces_editorial/cache.py`), used by that
cache to store and look up editorials, gives the gym and non-gym variants of
contest 1 problem A the same key. -/
theorem claim_C5_counterexample :
    EditorialCache.getKey ⟨"1".data, "A".data, true⟩ =
      EditorialCache.getKey ⟨"1".data, "A".data, false⟩ ∧
    (⟨"1".data, "A".data, true⟩ : ProblemIdentifier) ≠ ⟨"1".data, "A".data, false⟩ := by
  exact ⟨rfl, by decide⟩

/-- C5 (amended): for identifiers of the shape the URL resolver produces,
`ProblemIdentifier.cache_key` (`src/domain/models.py`) is equal exactly when
the (contest_id, problem_index, is_gym) triples are equal — it is keyed on the
gym flag — while `EditorialCache._get_key` (`src/codeforces_editorial/cache.py`)
is equal exactly when the (contest_id, problem_index) pairs are equal,
ignoring the gym flag. -/
theorem claim_C5 (p q : ProblemIdentifier)
    (hp : validId p = true) (hq : validId q = true) :
    (p.cache_key = q.cache_key ↔ p = q) ∧
    (EditorialCache.getKey p = EditorialCache.getKey q ↔
      (p.contest_id = q.contest_id ∧ p.problem_id = q.problem_id)) := by
  refine ⟨⟨fun h => ?_, fun h => by rw [h]⟩,
    getKey_eq_iff (validId_contest_digits hp) (validId_contest_digits hq)⟩
  exact cache_key_inj (validId_contest_digits hp) (validId_contest_digits hq)
    (validId_contest_ne_nil hp) (validId_contest_ne_nil hq) h

/-! ### Searching the fixed URL patterns -/

theorem matchLit_append (pat r : Str) : matchLit pat (pat ++ r) = some r := by
  induction pat with
  | nil => rfl
  | cons c cs ih => simp [matchLit, ih]

theorem matchPat_ne_c {mid sep : Str} {c : Char} {t : Str} (h : c ≠ 'c') :
    matchPat mid sep (c :: t) = none := by
  have h1 : matchLit "codeforces.".data (c :: t) = none := by
    show (if 'c' = c then matchLit "odeforces.".data t else none) = none
    rw [if_neg (fun he => h he.symm)]
  simp [matchPat, h1]

theorem searchPat_hit {mid sep : Str} {l : Str} {v : Str × Str}
    (h : matchPat mid sep l = some v) : searchPat mid sep l = some v := by
  cases l with
  | nil => simpa [searchPat] using h
  | cons c t => simp [searchPat, h]

theorem searchPat_cons_none {mid sep : Str} {c : Char} {t : Str}
    (h : matchPat mid sep (c :: t) = none) :
    searchPat mid sep (c :: t) = searchPat mid sep t := by
  simp [searchPat, h]

theorem searchPat_skip {mid sep : Str} :
    ∀ (pre l : Str), (∀ c ∈ pre, c ≠ 'c') →
      searchPat mid sep (pre ++ l) = searchPat mid sep l := by
  intro pre
  induction pre with
  | nil => intro l _; rfl
  | cons c t ih =>
    intro l h
    rw [List.cons_append, searchPat_cons_none (matchPat_ne_c (h c (by simp)))]
    exact ih l (fun d hd => h d (by simp [hd]))

theorem searchPat_skip_n {mid sep : Str} :
    ∀ (pre l : Str),
      (∀ k, k < pre.length → matchPat mid sep (pre.drop k ++ l) = none) →
      searchPat mid sep (pre ++ l) = searchPat mid sep l := by
  intro pre
  induction pre with
  | nil => intro l _; rfl
  | cons c t ih =>
    intro l h
    have h0 : matchPat mid sep (c :: (t ++ l)) = none := by
      have := h 0 (by simp)
      simpa using this
    rw [List.cons_append, searchPat_cons_none h0]
    refine ih l (fun k hk => ?_)
    have := h (k + 1) (by simpa using Nat.succ_lt_succ hk)
    simpa using this

theorem matchPat_hit (mid sep cid pids : Str) (pidc : Char)
    (hcid : ∀ c ∈ cid, c.isDigit = true) (hne : cid ≠ [])
    (hsep : headDigit (sep ++ pidc :: pids) = false)
    (hup : pidc.isUpper = true) (hpids : ∀ c ∈ pids, c.isDigit = true) :
    matchPat mid sep
      ("codeforces.".data ++ ("com".data ++ (mid ++ (cid ++ (sep ++ pidc :: pids))))) =
      some (cid, pidc :: pids) := by
  simp only [matchPat, matchLit_append, Option.bind_eq_bind, Option.some_bind,
    Option.some_orElse, Option.some_orElse']
  rw [spanDigits_eq cid (sep ++ pidc :: pids) hcid hsep]
  have hg : (!cid.isEmpty) = true := by
    cases cid with
    | nil => exact absurd rfl hne
    | cons a b => rfl
  simp [hg, hup, matchLit_append, spanDigits_all pids hpids]

theorem digit_ne_c {c : Char} (h : c.isDigit = true) : c ≠ 'c' := by
  intro he
  rw [he] at h
  exact absurd h (by decide)

theorem upper_ne_c {c : Char} (h : c.isUpper = true) : c ≠ 'c' := by
  intro he
  rw [he] at h
  exact absurd h (by decide)

theorem digit_ne_g {c : Char} (h : c.isDigit = true) : c ≠ 'g' := by
  intro he
  rw [he] at h
  exact absurd h (by decide)

theorem upper_ne_g {c : Char} (h : c.isUpper = true) : c ≠ 'g' := by
  intro he
  rw [he] at h
  exact absurd h (by decide)

/-! ### The `"/gym/" in url` containment test -/

theorem matchLit_gym_none {c : Char} {t : Str} (hg : 'g' ∉ c :: t) :
    matchLit "/gym/".data (c :: t) = none := by
  show (if '/' = c then matchLit "gym/".data t else none) = none
  by_cases hc : '/' = c
  · rw [if_pos hc]
    cases t with
    | nil => rfl
    | cons c2 t2 =>
      show (if 'g' = c2 then matchLit "ym/".data t2 else none) = none
      rw [if_neg]
      intro he
      exact hg (by simp [← he])
  · rw [if_neg hc]

theorem containsSeg_gym_false :
    ∀ (l : Str), 'g' ∉ l → containsSeg "/gym/".data l = false := by
  intro l
  induction l with
  | nil => intro _; rfl
  | cons c t ih =>
    intro hg
    simp only [containsSeg, matchLit_gym_none hg, Option.isSome_none, Bool.false_or]
    exact ih (fun hm => hg (by simp [hm]))

theorem containsSeg_cons_none {pat : Str} {c : Char} {t : Str}
    (h : matchLit pat (c :: t) = none) :
    containsSeg pat (c :: t) = containsSeg pat t := by
  simp [containsSeg, h]

theorem containsSeg_append_none {pat : Str} :
    ∀ (pre l : Str),
      (∀ k, k < pre.length → matchLit pat (pre.drop k ++ l) = none) →
      containsSeg pat (pre ++ l) = containsSeg pat l := by
  intro pre
  induction pre with
  | nil => intro l _; rfl
  | cons c t ih =>
    intro l h
    have h0 : matchLit pat (c :: (t ++ l)) = none := by
      have := h 0 (by simp)
      simpa using this
    rw [List.cons_append, containsSeg_cons_none h0]
    refine ih l (fun k hk => ?_)
    have := h (k + 1) (by simpa using Nat.succ_lt_succ hk)
    simpa using this

theorem containsSeg_self (pat r : Str) (hp : pat ≠ []) :
    containsSeg pat (pat ++ r) = true := by
  cases pat with
  | nil => exact absurd rfl hp
  | cons c pt =>
    have hm : matchLit (c :: pt) ((c :: pt) ++ r) = some r := matchLit_append _ _
    rw [List.cons_append] at hm ⊢
    simp [containsSeg, hm]

/-- C4: the round-trip law — on every identifier of the resolver's shape
(digit contest id, uppercase letter plus digits problem index, either gym
flag), `URLParser.parse` applied to `URLParser.build_problem_url` succeeds
and returns the identifier unchanged. -/
theorem claim_C4 (p : ProblemIdentifier) (h : validId p = true) :
    URLParser.parse (URLParser.build_problem_url p) = some p := by
  obtain ⟨cid, pid, gym⟩ := p
  have hne : cid ≠ [] := validId_contest_ne_nil h
  have hcid : ∀ c ∈ cid, c.isDigit = true := validId_contest_digits h
  rw [validId, Bool.and_eq_true, Bool.and_eq_true] at h
  have hvi := h.2
  cases pid with
  | nil => exact absurd hvi (by simp [validIndex])
  | cons pidc pids =>
    rw [validIndex, Bool.and_eq_true, List.all_eq_true] at hvi
    have hup : pidc.isUpper = true := hvi.1
    have hpids : ∀ c ∈ pids, c.isDigit = true := fun c hc => by
      have := hvi.2 c hc
      simpa using this
    have hcid' : ∀ c ∈ cid, c ≠ 'c' := fun c hc => digit_ne_c (hcid c hc)
    have hpids' : ∀ c ∈ pids, c ≠ 'c' := fun c hc => digit_ne_c (hpids c hc)
    cases gym with
    | false =>
      rw [URLParser.build_problem_url]
      simp only [if_neg (by simp : ¬ (false = true))]
      have e0 : hasSchemeNetloc
          ("https://codeforces.com".data ++
            ("/contest/".data ++ (cid ++ ("/problem/".data ++ (pidc :: pids))))) = true := rfl
      have e1 : searchPat "/contest/".data "/problem/".data
          ("https://codeforces.com".data ++
            ("/contest/".data ++ (cid ++ ("/problem/".data ++ (pidc :: pids))))) =
          some (cid, pidc :: pids) := by
        show searchPat "/contest/".data "/problem/".data
          ("https://".data ++ ("codeforces.".data ++ ("com".data ++
            ("/contest/".data ++ (cid ++ ("/problem/".data ++ (pidc :: pids))))))) =
          some (cid, pidc :: pids)
        rw [searchPat_skip "https://".data _ (by decide)]
        exact searchPat_hit (matchPat_hit _ _ cid pids pidc hcid hne rfl hup hpids)
      have e2 : containsSeg "/gym/".data
          ("https://codeforces.com".data ++
            ("/contest/".data ++ (cid ++ ("/problem/".data ++ (pidc :: pids))))) = false := by
        refine containsSeg_gym_false _ (fun hm => ?_)
        rcases List.mem_append.mp hm with hm | hm
        · exact absurd hm (by decide)
        rcases List.mem_append.mp hm with hm | hm
        · exact absurd hm (by decide)
        rcases List.mem_append.mp hm with hm | hm
        · exact digit_ne_g (hcid _ hm) rfl
        rcases List.mem_append.mp hm with hm | hm
        · exact absurd hm (by decide)
        rcases List.mem_cons.mp hm with hm | hm
        · exact upper_ne_g hup hm.symm
        · exact digit_ne_g (hpids _ hm) rfl
      rw [URLParser.parse, e0, e1, e2]
      rfl
    | true =>
      rw [show URLParser.build_problem_url ⟨cid, pidc :: pids, true⟩ =
        "https://codeforces.com".data ++
          ("/gym/".data ++ (cid ++ ("/problem/".data ++ (pidc :: pids)))) from rfl]
      have e0 : hasSchemeNetloc
          ("https://codeforces.com".data ++
            ("/gym/".data ++ (cid ++ ("/problem/".data ++ (pidc :: pids))))) = true := rfl
      have e1 : searchPat "/contest/".data "/problem/".data
          ("https://codeforces.com".data ++
            ("/gym/".data ++ (cid ++ ("/problem/".data ++ (pidc :: pids))))) = none := by
        show searchPat "/contest/".data "/problem/".data
          ("https://codeforces.com/gym/".data ++
            (cid ++ ("/problem/".data ++ (pidc :: pids)))) = none
        rw [searchPat_skip_n "https://codeforces.com/gym/".data _ ?hks]
        case hks =>
          intro k hk
          rw [show ("https://codeforces.com/gym/".data).length = 27 from rfl] at hk
          interval_cases k <;> rfl
        rw [searchPat_skip cid _ hcid']
        rw [searchPat_skip "/problem/".data _ (by decide)]
        rw [searchPat_cons_none (matchPat_ne_c (upper_ne_c hup))]
        rw [← List.append_nil pids, searchPat_skip pids _ hpids']
        rfl
      have e2 : searchPat "/problemset/problem/".data "/".data
          ("https://codeforces.com".data ++
            ("/gym/".data ++ (cid ++ ("/problem/".data ++ (pidc :: pids))))) = none := by
        show searchPat "/problemset/problem/".data "/".data
          ("https://codeforces.com/gym/".data ++
            (cid ++ ("/problem/".data ++ (pidc :: pids)))) = none
        rw [searchPat_skip_n "https://codeforces.com/gym/".data _ ?hks]
        case hks =>
          intro k hk
          rw [show ("https://codeforces.com/gym/".data).length = 27 from rfl] at hk
          interval_cases k <;> rfl
        rw [searchPat_skip cid _ hcid']
        rw [searchPat_skip "/problem/".data _ (by decide)]
        rw [searchPat_cons_none (matchPat_ne_c (upper_ne_c hup))]
        rw [← List.append_nil pids, searchPat_skip pids _ hpids']
        rfl
      have e3 : searchPat "/gym/".data "/problem/".data
          ("https://codeforces.com".data ++
            ("/gym/".data ++ (cid ++ ("/problem/".data ++ (pidc :: pids))))) =
          some (cid, pidc :: pids) := by
        show searchPat "/gym/".data "/problem/".data
          ("https://".data ++ ("codeforces.".data ++ ("com".data ++
            ("/gym/".data ++ (cid ++ ("/problem/".data ++ (pidc :: pids))))))) =
          some (cid, pidc :: pids)
        rw [searchPat_skip "https://".data _ (by decide)]
        exact searchPat_hit (matchPat_hit _ _ cid pids pidc hcid hne rfl hup hpids)
      have e4 : containsSeg "/gym/".data
          ("https://codeforces.com".data ++
            ("/gym/".data ++ (cid ++ ("/problem/".data ++ (pidc :: pids))))) = true := by
        rw [containsSeg_append_none "https://codeforces.com".data _ ?hkc]
        case hkc =>
          intro k hk
          rw [show ("https://codeforces.com".data).length = 22 from rfl] at hk
          interval_cases k <;> rfl
        exact containsSeg_self "/gym/".data _ (by decide)
      rw [URLParser.parse, e0, e1, e2, e3, e4]
      rfl

/-- C4 witness: the round trip evaluated at the gym identifier 102345/B1 and
the contest identifier 1234/A. -/
theorem claim_C4_witness :
    URLParser.parse (URLParser.build_problem_url ⟨"102345".data, "B1".data, true⟩) =
      some ⟨"102345".data, "B1".data, true⟩ ∧
    URLParser.parse (URLParser.build_problem_url ⟨"1234".data, "A".data, false⟩) =
      some ⟨"1234".data, "A".data, false⟩ :=
  ⟨claim_C4 _ (by decide), claim_C4 _ (by decide)⟩

/-- C10: whenever `URLParser.parse` accepts a URL, the returned gym flag is
true exactly when the substring `/gym/` occurs anywhere in the URL string,
regardless of which pattern matched. -/
theorem claim_C10 (url : Str) (p : ProblemIdentifier)
    (h : URLParser.parse url = some p) :
    p.is_gym = true ↔ containsSeg "/gym/".data url = true := by
  rw [URLParser.parse] at h
  by_cases hs : hasSchemeNetloc url = true
  · rw [if_pos hs] at h
    cases he1 : searchPat "/contest/".data "/problem/".data url with
    | some v =>
      obtain ⟨cid, pid⟩ := v
      rw [he1] at h
      simp only [Option.some.injEq] at h
      rw [← h]
    | none =>
      rw [he1] at h
      cases he2 : searchPat "/problemset/problem/".data "/".data url with
      | some v =>
        obtain ⟨cid, pid⟩ := v
        rw [he2] at h
        simp only [Option.some.injEq] at h
        rw [← h]
      | none =>
        rw [he2] at h
        cases he3 : searchPat "/gym/".data "/problem/".data url with
        | some v =>
          obtain ⟨cid, pid⟩ := v
          rw [he3] at h
          simp only [Option.some.injEq] at h
          rw [← h]
        | none =>
          rw [he3] at h
          exact absurd h (by simp)
  · rw [if_neg hs] at h
    exact absurd h (by simp)

/-- C10 witness: a URL matched by the contest pattern whose query string
contains `/gym/` parses with the gym flag set. -/
theorem claim_C10_witness :
    (⟨"1".data, "A".data, true⟩ : ProblemIdentifier).is_gym = true ↔
      containsSeg "/gym/".data
        "https://codeforces.com/contest/1/problem/A?x=/gym/".data = true :=
  claim_C10 "https://codeforces.com/contest/1/problem/A?x=/gym/".data
    ⟨"1".data, "A".data, true⟩ (by decide)

/-- C5 witness: the amended key law evaluated at the gym and non-gym variants
of contest 1 problem A. -/
theorem claim_C5_witness :
    (ProblemIdentifier.cache_key ⟨"1".data, "A".data, true⟩ =
        ProblemIdentifier.cache_key ⟨"1".data, "A".data, false⟩ ↔
      (⟨"1".data, "A".data, true⟩ : ProblemIdentifier) = ⟨"1".data, "A".data, false⟩) ∧
    (EditorialCache.getKey ⟨"1".data, "A".data, true⟩ =
        EditorialCache.getKey ⟨"1".data, "A".data, false⟩ ↔
      (("1".data : Str) = "1".data ∧ ("A".data : Str) = "A".data)) :=
  claim_C5 ⟨"1".data, "A".data, true⟩ ⟨"1".data, "A".data, false⟩ (by decide) (by decide)

/-! ### Front-matter stripping against its declarative shape -/

theorem matchLit_some_decomp :
    ∀ (pat l r : Str), matchLit pat l = some r → l = pat ++ r := by
  intro pat
  induction pat with
  | nil =>
    intro l r h
    simp only [matchLit, Option.some.injEq] at h
    rw [h, List.nil_append]
  | cons p ps ih =>
    intro l r h
    cases l with
    | nil => simp [matchLit] at h
    | cons c cs =>
      by_cases hpc : p = c
      · have h2 : matchLit ps cs = some r := by
          simpa [matchLit, hpc] using h
        rw [List.cons_append, ih cs r h2, hpc]
      · simp [matchLit, hpc] at h

theorem findCloseAux_some :
    ∀ (l rest : Str), findCloseAux l = some rest →
      (∃ mid, l = mid ++ "\n---\n\n".data ++ rest) ∧ headNewline rest = false := by
  intro l
  induction l with
  | nil => intro rest h; simp [findCloseAux] at h
  | cons c t ih =>
    intro rest h
    rw [findCloseAux] at h
    cases hm : matchLit "\n---\n\n".data (c :: t) with
    | none =>
      rw [hm] at h
      obtain ⟨⟨mid, hmid⟩, hh⟩ := ih rest h
      exact ⟨⟨c :: mid, by simp [hmid]⟩, hh⟩
    | some r =>
      rw [hm] at h
      have h2 : (if headNewline r = true then findCloseAux t else some r) = some rest := h
      by_cases hr : headNewline r = true
      · rw [if_pos hr] at h2
        obtain ⟨⟨mid, hmid⟩, hh⟩ := ih rest h2
        exact ⟨⟨c :: mid, by simp [hmid]⟩, hh⟩
      · rw [if_neg hr] at h2
        have hrr : r = rest := by
          simpa using h2
        subst hrr
        refine ⟨⟨[], ?_⟩, by simpa using hr⟩
        rw [List.nil_append]
        have := matchLit_some_decomp _ _ _ hm
        simpa using this

theorem findCloseAux_complete :
    ∀ (mid rest : Str), headNewline rest = false →
      (findCloseAux (mid ++ ("\n---\n\n".data ++ rest))).isSome = true := by
  intro mid
  induction mid with
  | nil =>
    intro rest hr
    rw [List.nil_append]
    show (findCloseAux ('\n' :: ("---\n\n".data ++ rest))).isSome = true
    rw [findCloseAux]
    rw [show matchLit "\n---\n\n".data ('\n' :: ("---\n\n".data ++ rest)) = some rest from
      matchLit_append _ _]
    show (if headNewline rest = true then findCloseAux ("---\n\n".data ++ rest)
      else some rest).isSome = true
    rw [hr]
    simp
  | cons c t ih =>
    intro rest hr
    rw [List.cons_append, findCloseAux]
    cases hm : matchLit "\n---\n\n".data (c :: (t ++ ("\n---\n\n".data ++ rest))) with
    | none => exact ih rest hr
    | some r =>
      show (if headNewline r = true then findCloseAux (t ++ ("\n---\n\n".data ++ rest))
        else some r).isSome = true
      by_cases hrh : headNewline r = true
      · rw [if_pos hrh]
        exact ih rest hr
      · rw [if_neg hrh]
        rfl

theorem stripFrontMatter_spec (t : Str) :
    (¬ FMShape t → stripFrontMatter t = t) ∧
    (FMShape t → ∃ mid rest, t = "---\n".data ++ mid ++ "\n---\n\n".data ++ rest ∧
      headNewline rest = false ∧ stripFrontMatter t = pyStrip rest) := by
  constructor
  · intro hns
    rw [stripFrontMatter]
    cases ho : matchLit "---\n".data t with
    | none => rfl
    | some rest0 =>
      show (match findCloseAux rest0 with
        | some rest => pyStrip rest
        | none => t) = t
      cases hc : findCloseAux rest0 with
      | none => rfl
      | some rest =>
        exfalso
        obtain ⟨⟨mid, hmid⟩, hh⟩ := findCloseAux_some rest0 rest hc
        refine hns ⟨mid, rest, ?_, hh⟩
        rw [matchLit_some_decomp _ _ _ ho, hmid]
        simp [List.append_assoc]
  · intro hs
    obtain ⟨mid, rest, heq, hh⟩ := hs
    have hmo : matchLit "---\n".data t = some (mid ++ ("\n---\n\n".data ++ rest)) := by
      rw [heq]
      rw [show ("---\n".data ++ mid ++ "\n---\n\n".data ++ rest : Str) =
        "---\n".data ++ (mid ++ ("\n---\n\n".data ++ rest)) by simp [List.append_assoc]]
      exact matchLit_append _ _
    cases hc : findCloseAux (mid ++ ("\n---\n\n".data ++ rest)) with
    | none =>
      exfalso
      have := findCloseAux_complete mid rest hh
      rw [hc] at this
      simp at this
    | some rest2 =>
      obtain ⟨⟨mid2, hmid2⟩, hh2⟩ := findCloseAux_some _ _ hc
      have hsf : stripFrontMatter t = pyStrip rest2 := by
        rw [stripFrontMatter, hmo]
        show (match findCloseAux (mid ++ ("\n---\n\n".data ++ rest)) with
          | some r => pyStrip r
          | none => t) = pyStrip rest2
        rw [hc]
      refine ⟨mid2, rest2, ?_, hh2, hsf⟩
      rw [heq]
      rw [show ("---\n".data ++ mid ++ "\n---\n\n".data ++ rest : Str) =
        "---\n".data ++ (mid ++ ("\n---\n\n".data ++ rest)) by simp [List.append_assoc]]
      rw [hmid2]
      simp [List.append_assoc]

/-- C1 (counterexample): a response whose trimmed text contains the sentinel
`NOT_FOUND` not as a prefix — it sits after a front-matter header — is not
blocked, but `solution_text` is the stripped remainder, not the full trimmed
text, so "the trimmed text becomes solution_text unchanged" fails here. -/
theorem claim_C1_counterexample :
    extractSolutionText (some "m".data)
      (PyVal.dict [("raw_response".data, PyVal.str "---\nmeta\n---\n\nNOT_FOUND: x".data)]) =
      some "NOT_FOUND: x".data ∧
    "NOT_FOUND".data.isPrefixOf (pyStrip "---\nmeta\n---\n\nNOT_FOUND: x".data) = false ∧
    some "NOT_FOUND: x".data ≠
      some (pyStrip "---\nmeta\n---\n\nNOT_FOUND: x".data) := by
  exact ⟨rfl, rfl, by decide⟩

/-- C1 (amended): for every string-valued response, extraction fails exactly
when the trimmed text starts with the case-sensitive literal `NOT_FOUND`; any
other casing or position of the sentinel does not block extraction, and the
trimmed text becomes `solution_text` unchanged provided it does not match the
front-matter stripping pattern. -/
theorem claim_C1 (mn s : Str) :
    (extractSolutionText (some mn)
        (PyVal.dict [("raw_response".data, PyVal.str s)]) = Option.none ↔
      "NOT_FOUND".data.isPrefixOf (pyStrip s) = true) ∧
    ("NOT_FOUND".data.isPrefixOf (pyStrip s) = false → ¬ FMShape (pyStrip s) →
      extractSolutionText (some mn)
        (PyVal.dict [("raw_response".data, PyVal.str s)]) = some (pyStrip s)) := by
  constructor
  · cases hp : "NOT_FOUND".data.isPrefixOf (pyStrip s) with
    | true => simp [extractSolutionText, lookupKey, hp]
    | false => simp [extractSolutionText, lookupKey, hp]
  · intro hp hns
    simp [extractSolutionText, lookupKey, hp, (stripFrontMatter_spec (pyStrip s)).1 hns]

/-- C1 witness: the amended statement at the mixed-position sentinel text
`Here NOT_FOUND later`, which neither blocks nor gets stripped. -/
theorem claim_C1_witness :
    ((extractSolutionText (some "m".data)
        (PyVal.dict [("raw_response".data, PyVal.str "Here NOT_FOUND later".data)]) =
        Option.none ↔
      "NOT_FOUND".data.isPrefixOf (pyStrip "Here NOT_FOUND later".data) = true) ∧
    ("NOT_FOUND".data.isPrefixOf (pyStrip "Here NOT_FOUND later".data) = false →
      ¬ FMShape (pyStrip "Here NOT_FOUND later".data) →
      extractSolutionText (some "m".data)
        (PyVal.dict [("raw_response".data, PyVal.str "Here NOT_FOUND later".data)]) =
        some (pyStrip "Here NOT_FOUND later".data))) :=
  claim_C1 "m".data "Here NOT_FOUND later".data

/-- C2: extraction succeeds only when the client exposes a model name and the
response is a mapping whose response-text key holds exactly a string; a
missing model name, a non-mapping response, a missing key, or a key holding
anything but a string all fail; the empty string succeeds with an empty
`solution_text`. -/
theorem claim_C2 :
    (∀ (m : Option Str) (resp : PyVal) (t : Str),
      extractSolutionText m resp = some t →
        (∃ mn, m = some mn) ∧
        ∃ es v, resp = PyVal.dict es ∧
          lookupKey es "raw_response".data = some (PyVal.str v)) ∧
    (∀ resp, extractSolutionText Option.none resp = Option.none) ∧
    (∀ (mn : Str) (es : List (Str × PyVal)),
      (∀ v, lookupKey es "raw_response".data = some v → ∀ s, v ≠ PyVal.str s) →
      extractSolutionText (some mn) (PyVal.dict es) = Option.none) ∧
    (∀ (mn s : Str) (n : Int) (xs : List PyVal),
      extractSolutionText (some mn) (PyVal.str s) = Option.none ∧
      extractSolutionText (some mn) (PyVal.num n) = Option.none ∧
      extractSolutionText (some mn) (PyVal.list xs) = Option.none ∧
      extractSolutionText (some mn) PyVal.pynone = Option.none) ∧
    (∀ mn : Str,
      extractSolutionText (some mn)
        (PyVal.dict [("raw_response".data, PyVal.str [])]) = some []) := by
  refine ⟨?_, fun _ => rfl, ?_, fun _ _ _ _ => ⟨rfl, rfl, rfl, rfl⟩, fun _ => rfl⟩
  · intro m resp t h
    cases m with
    | none => exact absurd h (by simp [extractSolutionText])
    | some mn =>
      refine ⟨⟨mn, rfl⟩, ?_⟩
      cases resp with
      | pynone => exact absurd h (by simp [extractSolutionText])
      | str s => exact absurd h (by simp [extractSolutionText])
      | num n => exact absurd h (by simp [extractSolutionText])
      | list xs => exact absurd h (by simp [extractSolutionText])
      | dict es =>
        refine ⟨es, ?_⟩
        rw [extractSolutionText] at h
        cases hl : lookupKey es "raw_response".data with
        | none => rw [hl] at h; exact absurd h (by simp)
        | some v =>
          rw [hl] at h
          cases v with
          | pynone => exact absurd h (by simp)
          | num n => exact absurd h (by simp)
          | list xs => exact absurd h (by simp)
          | dict ds => exact absurd h (by simp)
          | str sv => exact ⟨sv, rfl, rfl⟩
  · intro mn es hv
    rw [extractSolutionText]
    cases hl : lookupKey es "raw_response".data with
    | none => rfl
    | some v =>
      cases v with
      | pynone => rfl
      | num n => rfl
      | list xs => rfl
      | dict ds => rfl
      | str sv => exact absurd rfl (hv _ hl sv)

/-- C2 witness: the model-less client, a number-valued response-text key and
the empty-string response evaluated concretely. -/
theorem claim_C2_witness :
    extractSolutionText Option.none
      (PyVal.dict [("raw_response".data, PyVal.str "x".data)]) = Option.none ∧
    extractSolutionText (some "m".data)
      (PyVal.dict [("raw_response".data, PyVal.num 10)]) = Option.none ∧
    extractSolutionText (some "m".data)
      (PyVal.dict [("raw_response".data, PyVal.str [])]) = some [] :=
  ⟨claim_C2.2.1 (PyVal.dict [("raw_response".data, PyVal.str "x".data)]),
   claim_C2.2.2.1 "m".data [("raw_response".data, PyVal.num 10)]
     (fun v hv => by
       have hv2 : PyVal.num 10 = v := by simpa [lookupKey] using hv
       intro s he
       rw [← hv2] at he
       exact PyVal.noConfusion he),
   claim_C2.2.2.2.2 "m".data⟩

/-- C3: front matter is stripped exactly when the trimmed response matches,
at its start, a `---` line, intervening content, a `---` line and exactly one
blank line — `solution_text` then being the remaining content trimmed — and
on any other shape the full trimmed text is preserved unchanged. -/
theorem claim_C3 (mn s : Str)
    (hnf : "NOT_FOUND".data.isPrefixOf (pyStrip s) = false) :
    (¬ FMShape (pyStrip s) →
      extractSolutionText (some mn)
        (PyVal.dict [("raw_response".data, PyVal.str s)]) = some (pyStrip s)) ∧
    (FMShape (pyStrip s) →
      ∃ mid rest, pyStrip s = "---\n".data ++ mid ++ "\n---\n\n".data ++ rest ∧
        headNewline rest = false ∧
        extractSolutionText (some mn)
          (PyVal.dict [("raw_response".data, PyVal.str s)]) = some (pyStrip rest)) := by
  have hb : extractSolutionText (some mn)
      (PyVal.dict [("raw_response".data, PyVal.str s)]) =
      some (stripFrontMatter (pyStrip s)) := by
    simp [extractSolutionText, lookupKey, hnf]
  constructor
  · intro hns
    rw [hb, (stripFrontMatter_spec (pyStrip s)).1 hns]
  · intro hs
    obtain ⟨mid, rest, he, hh, hres⟩ := (stripFrontMatter_spec (pyStrip s)).2 hs
    exact ⟨mid, rest, he, hh, by rw [hb, hres]⟩

/-- C3 witness: the spec's positive example, a front-matter header followed
by one blank line and `solution`. -/
theorem claim_C3_witness :
    (¬ FMShape (pyStrip "---\nmeta\n---\n\nsolution".data) →
      extractSolutionText (some "m".data)
        (PyVal.dict [("raw_response".data, PyVal.str "---\nmeta\n---\n\nsolution".data)]) =
        some (pyStrip "---\nmeta\n---\n\nsolution".data)) ∧
    (FMShape (pyStrip "---\nmeta\n---\n\nsolution".data) →
      ∃ mid rest,
        pyStrip "---\nmeta\n---\n\nsolution".data =
          "---\n".data ++ mid ++ "\n---\n\n".data ++ rest ∧
        headNewline rest = false ∧
        extractSolutionText (some "m".data)
          (PyVal.dict [("raw_response".data, PyVal.str "---\nmeta\n---\n\nsolution".data)]) =
          some (pyStrip rest)) :=
  claim_C3 "m".data "---\nmeta\n---\n\nsolution".data (by decide)

/-- C6 (counterexample): a run in which every pipeline stage succeeds but the
cache write fails.  In the synchronous `EditorialOrchestrator.get_editorial`
the unguarded `cache.set` propagates the `CacheError` and the call fails; the
async service pipeline swallows the same failure and returns the extracted
pair. -/
theorem claim_C6_counterexample :
    syncGetEditorial true breakingOps = .error PipeError.cache ∧
    serviceGetEditorial true true breakingOps =
      .ok (⟨"1A".data, "sol".data, Option.none, ⟨2024, 1, 1, 0, 0, 0, 0⟩⟩, ⟨"t".data⟩) :=
  ⟨rfl, rfl⟩

/-- C6 (amended): when every stage up to extraction succeeds, the async
service pipeline (`src/services/editorial.py`, likewise the async
orchestrator) returns the extracted pair whatever the cache write does — its
`_save_to_cache` catches all exceptions; but in the synchronous
`EditorialOrchestrator.get_editorial`
(`src/codeforces_editorial/orchestrator.py`) a failing cache write makes the
whole call fail, because `cache.set` is unguarded and `EditorialCache.set`
raises `CacheError`. -/
theorem claim_C6 (ops : PipelineOps) (useCache cacheAvail : Bool)
    (idv : ProblemIdentifier) (pd : ProblemData) (turl : Str) (td : TutorialData)
    (ed : Editorial)
    (h1 : ops.resolve = .ok idv) (h2 : ops.cacheGet = .ok Option.none)
    (h3 : ops.problemPage = .ok pd) (h4 : ops.findTutorial = .ok turl)
    (h5 : ops.parseTutorial = .ok td) (h6 : ops.extractEd = .ok ed) :
    serviceGetEditorial useCache cacheAvail ops = .ok (ed, pd) ∧
    (∀ e, ops.cacheSet = .error e → useCache = true →
      syncGetEditorial useCache ops = .error e) := by
  constructor
  · rw [serviceGetEditorial, h1, h2, h3, h4, h5, h6]
    cases useCache <;> cases cacheAvail <;> simp
  · intro e hce huc
    subst huc
    rw [syncGetEditorial, h1, h2, h3, h4, h5, h6, hce]
    simp

/-- C6 witness: the amended statement evaluated on the concrete run whose
cache write fails. -/
theorem claim_C6_witness :
    serviceGetEditorial true true breakingOps =
      .ok (⟨"1A".data, "sol".data, Option.none, ⟨2024, 1, 1, 0, 0, 0, 0⟩⟩, ⟨"t".data⟩) ∧
    (∀ e, breakingOps.cacheSet = .error e → true = true →
      syncGetEditorial true breakingOps = .error e) :=
  claim_C6 breakingOps true true ⟨"1".data, "A".data, false⟩ ⟨"t".data⟩ "u".data
    ⟨"u".data, TutorialFormat.html, "c".data⟩
    ⟨"1A".data, "sol".data, Option.none, ⟨2024, 1, 1, 0, 0, 0, 0⟩⟩
    rfl rfl rfl rfl rfl rfl

/-- C7: when the queried content type does not contain `pdf`, the normalizer
fetches via the JS-rendered path with the fixed 5000 ms wait budget exactly
for URLs under a blog or contest path, and via the static text fetch exactly
otherwise; content types containing `pdf` always take the PDF byte fetch. -/
theorem claim_C7 (ct url : Str) (hpdf : containsSeg "pdf".data ct = false) :
    (choosePath ct url = FetchPath.jsRendered 5000 ↔
      (containsSeg "/blog/".data url || containsSeg "/contest/".data url) = true) ∧
    (choosePath ct url = FetchPath.staticText ↔
      (containsSeg "/blog/".data url || containsSeg "/contest/".data url) = false) ∧
    (∀ ct2 url2 : Str, containsSeg "pdf".data ct2 = true →
      choosePath ct2 url2 = FetchPath.pdfBytes) := by
  refine ⟨?_, ?_, fun ct2 url2 h2 => by rw [choosePath, h2]; rfl⟩ <;>
    cases hb : (containsSeg "/blog/".data url || containsSeg "/contest/".data url) <;>
      simp [choosePath, hpdf, hb]

/-- C7 witness: an HTML content type with a blog URL routes to the JS-rendered
fetch with the 5000 ms wait. -/
theorem claim_C7_witness :
    ((choosePath "text/html".data "https://codeforces.com/blog/entry/12345".data =
        FetchPath.jsRendered 5000 ↔
      (containsSeg "/blog/".data "https://codeforces.com/blog/entry/12345".data ||
        containsSeg "/contest/".data "https://codeforces.com/blog/entry/12345".data) = true) ∧
    (choosePath "text/html".data "https://codeforces.com/blog/entry/12345".data =
        FetchPath.staticText ↔
      (containsSeg "/blog/".data "https://codeforces.com/blog/entry/12345".data ||
        containsSeg "/contest/".data "https://codeforces.com/blog/entry/12345".data) = false) ∧
    (∀ ct2 url2 : Str, containsSeg "pdf".data ct2 = true →
      choosePath ct2 url2 = FetchPath.pdfBytes)) :=
  claim_C7 "text/html".data "https://codeforces.com/blog/entry/12345".data (by decide)

end CF
